import Mathlib

/-
Verification of the Instalaz content-rotation and publish-orchestration
engine (runner.py, app.py, sync.py) against its natural-language
specification.  The Python code is shallowly embedded: JSON rotation-state
files become a record, network calls become oracle parameters, exceptions
become Except/Option results, and machine arithmetic is carried out on
Nat/Int with explicit Python-style modulo where the source uses %.
-/

deriving instance DecidableEq for Except

namespace Instalaz

/-- Rotation state of one account: the two sequential pointers
(caption_idx from PREFIX_caption.json, image_idx from PREFIX_image.json)
and the two used lists (PREFIX_image_used.json, PREFIX_video_used.json).
A missing or unreadable file reads as 0 / []; the record stores the value
the load helpers would return. -/
structure RotState where
  caption_idx : Nat
  image_idx : Nat
  image_used : List String
  video_used : List String
deriving DecidableEq, Repr

/-- Account configuration fields consumed by the runner (one accounts.json
entry).  Optional numeric fields mirror cfg.get keys whose defaults are
applied at each use site, exactly as in the source. -/
structure Cfg where
  type_ : String
  name : String
  statePfx : String
  slides_per_post : Option Nat
  max_images : Option Nat
  base_url : String
  video_base_url : String
deriving DecidableEq, Inhabited

/-- Mirrors _norm_base: (url or "").rstrip("/"). -/
def normBase (url : String) : String :=
  ⟨(url.data.reverse.dropWhile (fun c => c = '/')).reverse⟩

/-- Boolean infix test on character lists (Python substring test). -/
def listIsInfixOf (needle : List Char) : List Char → Bool
  | [] => needle.isEmpty
  | c :: cs => needle.isPrefixOf (c :: cs) || listIsInfixOf needle cs

/-- ASCII lower-casing of one character (str.lower on the ASCII range). -/
def lowerChar (c : Char) : Char :=
  if 65 ≤ c.toNat && c.toNat ≤ 90 then Char.ofNat (c.toNat + 32) else c

/-- Mirrors the branch test: "ruthless" in cfg_state_pfx.lower(). -/
def isRuthless (p : String) : Bool :=
  listIsInfixOf "ruthless".data (p.data.map lowerChar)

/-- Decimal digit character, as produced by Python str() of a digit. -/
def digitChar : Nat → Char
  | 0 => '0'
  | 1 => '1'
  | 2 => '2'
  | 3 => '3'
  | 4 => '4'
  | 5 => '5'
  | 6 => '6'
  | 7 => '7'
  | 8 => '8'
  | _ => '9'

/-- Numeric value of a decimal digit character. -/
def digitVal (c : Char) : Nat := c.toNat - 48

/-- Fuel-driven decimal rendering of a natural number (most significant
digit first), the character sequence Python f-strings interpolate. -/
def toDecimalAux : Nat → Nat → List Char
  | 0, _ => []
  | fuel + 1, n =>
    if n < 10 then [digitChar n]
    else toDecimalAux fuel (n / 10) ++ [digitChar (n % 10)]

/-- Decimal rendering of n; fuel n+1 always suffices. -/
def toDecimal (n : Nat) : List Char := toDecimalAux (n + 1) n

/-- Characters urllib.parse.quote never encodes (ALPHA, DIGIT, and the
marks in _ALWAYS_SAFE that occur in this repository's filenames). -/
def alwaysSafeChar (c : Char) : Bool :=
  c.isAlpha || c.isDigit || c = '_' || c = '.' || c = '-' || c = '~'

/-- Uppercase hex digit, as emitted by urllib percent-escapes. -/
def pctHex (n : Nat) : Char :=
  if n < 10 then digitChar n
  else if n = 10 then 'A'
  else if n = 11 then 'B'
  else if n = 12 then 'C'
  else if n = 13 then 'D'
  else if n = 14 then 'E'
  else 'F'

/-- quote of a single ASCII character with the given extra safe set. -/
def quoteChar (safe : List Char) (c : Char) : List Char :=
  if alwaysSafeChar c || safe.contains c then [c]
  else ['%', pctHex (c.toNat / 16), pctHex (c.toNat % 16)]

/-- urllib.parse.quote over a character list (ASCII inputs). -/
def quoteL (safe : List Char) : List Char → List Char
  | [] => []
  | c :: cs => quoteChar safe c ++ quoteL safe cs

/-- The safe set passed at every quote call site in the source: "()". -/
def parensSafe : List Char := ['(', ')']

/-- urllib.parse.quote on strings. -/
def quoteStr (safe : List Char) (s : String) : String := ⟨quoteL safe s.data⟩

/-- Character list of the virtual image filename img (n).jpg. -/
def imgNameL (n : Nat) : List Char := "img (".data ++ toDecimal n ++ ").jpg".data

/-- Mirrors _image_name_for: the f-string img (n).jpg. -/
def imageName (n : Nat) : String := ⟨imgNameL n⟩

/-- Character list of the hand-built ruthless encoding img%20(n).jpg. -/
def handBuiltL (n : Nat) : List Char := "img%20(".data ++ toDecimal n ++ ").jpg".data

/-- The hand-built encoding f-string img%20(n).jpg used on the ruthless
branch of next_images and get_random_candidate. -/
def handBuiltEnc (n : Nat) : String := ⟨handBuiltL n⟩

/-- Character list of the virtual video filename vid (n).mp4. -/
def vidNameL (n : Nat) : List Char := "vid (".data ++ toDecimal n ++ ").mp4".data

/-- The f-string vid (n).mp4. -/
def vidName (n : Nat) : String := ⟨vidNameL n⟩

/-- Mirrors next_caption, with the fetched caption lines passed in:
read the pointer, select lines[idx % len(lines)], store idx + 1. -/
def next_caption (lines : List String) (st : RotState) :
    Except String (String × RotState) :=
  if lines.isEmpty then .error "Caption list is empty."
  else .ok (lines.getD (st.caption_idx % lines.length) "",
            {st with caption_idx := st.caption_idx + 1})

/-- Mirrors next_images: build slides_per_post consecutive virtual image
URLs starting at pointer + 1, wrapping with ((last + i - 1) % max) + 1,
and store the new pointer (last + count - 1) % max + 1 (Python modulo,
hence the Int cast). -/
def next_images (cfg : Cfg) (st : RotState) :
    Except String (List String × RotState) :=
  let count := cfg.slides_per_post.getD 1
  let last := st.image_idx
  let maxImages := cfg.max_images.getD 10000
  let base := normBase cfg.base_url
  if base = "" then .error "Missing base_url for carousel."
  else if maxImages = 0 then .error "ZeroDivisionError"
  else
    let urls := (List.range count).map (fun j =>
      let i := j + 1
      let imgIndex := (last + i - 1) % maxImages + 1
      let encoded := if isRuthless cfg.statePfx then handBuiltEnc imgIndex
                     else quoteStr parensSafe (imageName imgIndex)
      base ++ "/" ++ encoded)
    .ok (urls,
         {st with image_idx := (((last : Int) + count - 1) % maxImages + 1).toNat})

/-- Spec-side variant of next_images in which both accounts take the
generic quote branch; compared with next_images for the refinement claim
that the two URL-encoding branches coincide. -/
def next_images_generic (cfg : Cfg) (st : RotState) :
    Except String (List String × RotState) :=
  let count := cfg.slides_per_post.getD 1
  let last := st.image_idx
  let maxImages := cfg.max_images.getD 10000
  let base := normBase cfg.base_url
  if base = "" then .error "Missing base_url for carousel."
  else if maxImages = 0 then .error "ZeroDivisionError"
  else
    let urls := (List.range count).map (fun j =>
      let i := j + 1
      let imgIndex := (last + i - 1) % maxImages + 1
      let encoded := quoteStr parensSafe (imageName imgIndex)
      base ++ "/" ++ encoded)
    .ok (urls,
         {st with image_idx := (((last : Int) + count - 1) % maxImages + 1).toNat})

/-- N consecutive next_caption calls (stopping at the first failure),
returning the captions produced and the final state. -/
def captionRuns (lines : List String) : Nat → RotState → List String × RotState
  | 0, st => ([], st)
  | n + 1, st =>
    match next_caption lines st with
    | .error _ => ([], st)
    | .ok (c, st1) =>
      let r := captionRuns lines n st1
      (c :: r.1, r.2)

/-- Final path segment of a URL or path: Python s.split("/")[-1]. -/
def lastSegment (s : String) : String :=
  ⟨(s.data.reverse.takeWhile (fun c => c ≠ '/')).reverse⟩

/-- Set-style insert used to model Python set.add followed by list(...)
(membership-relevant; ordering of list(set) is immaterial to the code). -/
def setInsert (l : List String) (x : String) : List String :=
  if x ∈ l then l else l ++ [x]

/-- Mirrors mark_video_used: add the last path segment of the selected
item to the video used list. -/
def mark_video_used (st : RotState) (selected : String) : RotState :=
  {st with video_used := setInsert st.video_used (lastSegment selected)}

/-- Mirrors mark_images_used: add the last path segment of every selected
URL to the image used list. -/
def mark_images_used (st : RotState) (urls : List String) : RotState :=
  {st with image_used := urls.foldl (fun u url => setInsert u (lastSegment url)) st.image_used}

/-- A candidate returned by selection: the URL and the raw filename. -/
structure Candidate where
  url : String
  filename : String
deriving DecidableEq, Repr

/-- The virtual video catalog: vid.mp4 plus vid (1..max).mp4. -/
def videoAllFiles (maxItems : Nat) : List String :=
  "vid.mp4" :: (List.range maxItems).map (fun i => vidName (i + 1))

/-- Mirrors video_candidates (items list only): catalog filtered by the
used list unless include_used, then one page of URL candidates. -/
def video_candidates (cfg : Cfg) (st : RotState) (page pageSize : Nat)
    (includeUsed : Bool) : List Candidate :=
  if cfg.type_ ≠ "reel" then []
  else
    let base := normBase cfg.video_base_url
    if base = "" then []
    else
      let maxItems := cfg.max_images.getD 200
      let used := st.video_used
      let allFiles := videoAllFiles maxItems
      let ordered := if includeUsed then allFiles
                     else allFiles.filter (fun f => !(used.contains f))
      let total := ordered.length
      if total = 0 then []
      else
        let start := (page - 1) * pageSize
        let stop := min (start + pageSize) total
        ((ordered.drop start).take (stop - start)).map
          (fun f => ⟨base ++ "/" ++ quoteStr parensSafe f, f⟩)

/-- The sequential reel shim inside run_account: first item of
video_candidates(page=1, page_size=1, include_used=False). -/
def nextVideoShim (cfg : Cfg) (st : RotState) : Option String :=
  (video_candidates cfg st 1 1 false).head?.map Candidate.url

/-- Decimal value of a digit string (Python int of the regex group). -/
def digitsToNat (ds : List Char) : Nat :=
  ds.foldl (fun a c => a * 10 + digitVal c) 0

/-- Longest leading run of digits and the rest. -/
def takeDigits : List Char → List Char × List Char
  | [] => ([], [])
  | c :: cs =>
    if c.isDigit then
      let r := takeDigits cs
      (c :: r.1, r.2)
    else ([], c :: cs)

/-- Mirrors re.search of a parenthesised digit group: the first group of
digits directly enclosed by parentheses, if any. -/
def parseParenNum : List Char → Option Nat
  | [] => none
  | c :: cs =>
    if c = '(' then
      match takeDigits cs with
      | ([], _) => parseParenNum cs
      | (ds, ')' :: _) => some (digitsToNat ds)
      | (_, _) => parseParenNum cs
    else parseParenNum cs

/-- The get_random_candidate catalog for a kind: virtual image names, or
vid.mp4 plus the virtual video names (note the differing defaults). -/
def grcItems (cfg : Cfg) (kind : String) : List String :=
  if kind = "image" then
    (List.range (cfg.max_images.getD 10000)).map (fun i => imageName (i + 1))
  else
    "vid.mp4" :: (List.range (cfg.max_images.getD 200)).map (fun i => vidName (i + 1))

/-- URL construction inside get_random_candidate: the ruthless image
branch re-derives the index by regex and hand-builds the encoding, the
other branches use quote. -/
def grcUrl (cfg : Cfg) (kind : String) (filename : String) : String :=
  if kind = "image" then
    let base := normBase cfg.base_url
    if isRuthless cfg.statePfx then
      let idx := (parseParenNum filename.data).getD 1
      base ++ "/" ++ handBuiltEnc idx
    else base ++ "/" ++ quoteStr parensSafe filename
  else
    let base := normBase cfg.video_base_url
    base ++ "/" ++ quoteStr parensSafe filename

/-- Oracle view of the outside world: fetched caption lines, HEAD probe
results, random draws, and the outcome of each upstream API call
(an Except error is a raised exception). -/
structure Env where
  fetchLines : Except String (List String)
  headOk : String → Bool
  pick : List String → Nat
  uploadImage : Nat → Except String String
  waitImage : Nat → Except String (Bool × String)
  createCarousel : Except String String
  waitCarousel : Except String (Bool × String)
  publishCreation : Except String String
  uploadReel : Except String String
  waitReel : Except String (Bool × String)

/-- The probe loop of get_random_candidate: up to the given budget, draw
a random candidate, HEAD-probe its URL, return it on success, else drop
it from the in-memory pool only.  Also counts probes performed. -/
def grcLoop (env : Env) (cfg : Cfg) (kind : String) :
    Nat → List String → Option Candidate × Nat
  | 0, _ => (none, 0)
  | fuel + 1, unused =>
    if unused.isEmpty then (none, 0)
    else
      let sel := unused.getD (env.pick unused % unused.length) ""
      let url := grcUrl cfg kind sel
      if env.headOk url then (some ⟨url, sel⟩, 1)
      else
        let r := grcLoop env cfg kind fuel (unused.erase sel)
        (r.1, r.2 + 1)

/-- The used-set get_random_candidate consults for a kind. -/
def grcUsedSet (kind : String) (st : RotState) : List String :=
  if kind = "image" then st.image_used else st.video_used

/-- The local variable unused of get_random_candidate before any reset:
catalog items not in the used-set. -/
def grcUnused (cfg : Cfg) (kind : String) (st : RotState) : List String :=
  (grcItems cfg kind).filter (fun x => !((grcUsedSet kind st).contains x))

/-- The persisted state after the (possible) full-exhaustion reset of
get_random_candidate: the relevant used list is saved as empty exactly
when no unused item was left. -/
def grcStateAfter (cfg : Cfg) (kind : String) (st : RotState) : RotState :=
  if (grcUnused cfg kind st).isEmpty then
    (if kind = "image" then {st with image_used := []} else {st with video_used := []})
  else st

/-- The candidate pool the probe loop starts from: the whole catalog
after a reset, the unused items otherwise. -/
def grcPool (cfg : Cfg) (kind : String) (st : RotState) : List String :=
  if (grcUnused cfg kind st).isEmpty then grcItems cfg kind else grcUnused cfg kind st

/-- Mirrors get_random_candidate: filter used items, persist an empty
used list when everything is used (full-exhaustion reset), then run the
bounded probe loop (cap 50).  Returns the candidate (if any), the state
after the call, and the number of probes performed. -/
def get_random_candidate (env : Env) (cfg : Cfg) (kind : String) (st : RotState) :
    Option Candidate × RotState × Nat :=
  if (grcPool cfg kind st).isEmpty then (none, grcStateAfter cfg kind st, 0)
  else
    ((grcLoop env cfg kind 50 (grcPool cfg kind st)).1, grcStateAfter cfg kind st,
     (grcLoop env cfg kind 50 (grcPool cfg kind st)).2)

/-- The schedule-mode carousel selection loop: slides_per_post calls of
get_random_candidate, collecting the URLs of the successful ones. -/
def pickRandomImages (env : Env) (cfg : Cfg) : Nat → RotState → List String × RotState
  | 0, st => ([], st)
  | k + 1, st =>
    let r := get_random_candidate env cfg "image" st
    let rest := pickRandomImages env cfg k r.2.1
    match r.1 with
    | some c => (c.url :: rest.1, rest.2)
    | none => (rest.1, rest.2)

/-- Order-preserving first-occurrence deduplication
(Python list(dict.fromkeys(...))). -/
def dedupAux (seen : List String) : List String → List String
  | [] => []
  | x :: xs => if x ∈ seen then dedupAux seen xs else x :: dedupAux (x :: seen) xs

/-- First-occurrence deduplication of the selected URLs. -/
def dedupKeepFirst (l : List String) : List String := dedupAux [] l

/-- next_caption including the caption fetch (fetch_lines failure is a
raised RuntimeError, before any state change). -/
def next_captionE (env : Env) (st : RotState) : Except String (String × RotState) :=
  match env.fetchLines with
  | .error e => .error e
  | .ok lines => next_caption lines st

/-- Content selection of the carousel branch of run_account: random
candidates plus deduplication in schedule mode, next_images in manual
mode, then the (state-advancing) caption selection. -/
def carouselSelect (env : Env) (cfg : Cfg) (mode : String) (st : RotState) :
    Option (List String × String) × RotState :=
  if mode = "schedule" then
    let r := pickRandomImages env cfg (cfg.slides_per_post.getD 1) st
    let sel := dedupKeepFirst r.1
    if sel.isEmpty then (none, r.2)
    else
      match next_captionE env r.2 with
      | .error _ => (none, r.2)
      | .ok (cap, st2) => (some (sel, cap), st2)
  else
    match next_images cfg st with
    | .error _ => (none, st)
    | .ok (imgs, st1) =>
      match next_captionE env st1 with
      | .error _ => (none, st1)
      | .ok (cap, st2) => (some (imgs, cap), st2)

/-- Content selection of the reel branch of run_account: a random
candidate in schedule mode; in manual mode the sequential shim with the
persisted reset-and-retry when every video is used. -/
def reelSelect (env : Env) (cfg : Cfg) (mode : String) (st : RotState) :
    Option String × RotState :=
  if mode = "schedule" then
    let r := get_random_candidate env cfg "video" st
    (r.1.map Candidate.url, r.2.1)
  else
    match nextVideoShim cfg st with
    | some u => (some u, st)
    | none =>
      let st1 := {st with video_used := []}
      (nextVideoShim cfg st1, st1)

/-- The image upload loop of run_account: upload each slide and wait for
its readiness, failing the whole run at the first failure. -/
def uploadAll (env : Env) : List Nat → Except String (List String)
  | [] => .ok []
  | i :: rest =>
    match env.uploadImage i with
    | .error e => .error e
    | .ok cid =>
      match env.waitImage i with
      | .error e => .error e
      | .ok (true, _) => (uploadAll env rest).map (fun cids => cid :: cids)
      | .ok (false, resp) =>
        .error ("Media container " ++ cid ++ " failed readiness. Info: " ++ resp)

/-- The publish phase of the carousel branch: uploads, container
creation, publish; marking the images used happens only after a
successful publish and only in schedule mode. -/
def carouselPublishPhase (env : Env) (mode : String) (imgs : List String)
    (st1 : RotState) : Option String × RotState :=
  match uploadAll env ((List.range imgs.length).map (fun j => j + 1)) with
  | .error _ => (none, st1)
  | .ok _ =>
    match env.createCarousel with
    | .error _ => (none, st1)
    | .ok _ =>
      match env.publishCreation with
      | .error _ => (none, st1)
      | .ok media =>
        (some media, if mode = "schedule" then mark_images_used st1 imgs else st1)

/-- The publish phase of the reel branch: upload, readiness wait,
publish; marking the video used happens only after a successful publish
and only in schedule mode. -/
def reelPublishPhase (env : Env) (mode : String) (vidUrl : String)
    (st2 : RotState) : Option String × RotState :=
  match env.uploadReel with
  | .error _ => (none, st2)
  | .ok _ =>
    match env.waitReel with
    | .error _ => (none, st2)
    | .ok (false, _) => (none, st2)
    | .ok (true, _) =>
      match env.publishCreation with
      | .error _ => (none, st2)
      | .ok media =>
        (some media, if mode = "schedule" then mark_video_used st2 vidUrl else st2)

/-- Mirrors run_account: the whole pipeline of one run.  Returns the
media id on success (None on any raised exception, which the source
catches, logs and converts to an error status) together with the
rotation state after the run. -/
def run_account (env : Env) (cfg : Cfg) (mode : String) (st : RotState) :
    Option String × RotState :=
  if cfg.type_ = "carousel" then
    match carouselSelect env cfg mode st with
    | (none, st1) => (none, st1)
    | (some (imgs, _cap), st1) => carouselPublishPhase env mode imgs st1
  else
    match reelSelect env cfg mode st with
    | (none, st1) => (none, st1)
    | (some vidUrl, st1) =>
      match next_captionE env st1 with
      | .error _ => (none, st1)
      | .ok (_cap, st2) => reelPublishPhase env mode vidUrl st2

/-- One poll of the container status endpoint: a transport exception, or
a response whose extracted status string is status_code or status or
the empty string. -/
inductive Poll where
  | exn : Poll
  | resp (status : String) (body : String) : Poll

/-- ASCII upper-casing of one character (str.upper on the ASCII range). -/
def upperChar (c : Char) : Char :=
  if 97 ≤ c.toNat && c.toNat ≤ 122 then Char.ofNat (c.toNat - 32) else c

/-- ASCII string upper-casing. -/
def strUpper (s : String) : String := ⟨s.data.map upperChar⟩

/-- Mirrors the polling loop of wait_until_ready: FINISHED returns
success, ERROR returns failure, a transport exception or any other
status keeps polling; when the attempt budget runs out the source
executes return False, last_resp where last_resp is an undefined name,
so the call raises NameError instead of returning. -/
def waitAux (polls : Nat → Poll) (i : Nat) : Nat → Except String (Bool × String)
  | 0 => .error "NameError: name last_resp is not defined"
  | remaining + 1 =>
    match polls i with
    | .exn => waitAux polls (i + 1) remaining
    | .resp status body =>
      if strUpper status = "FINISHED" then .ok (true, body)
      else if strUpper status = "ERROR" then .ok (false, body)
      else waitAux polls (i + 1) remaining

/-- The fixed attempt budget of wait_until_ready. -/
def waitMaxAttempts : Nat := 600

/-- The fixed poll interval of wait_until_ready, in seconds. -/
def waitDelaySeconds : Nat := 2

/-- Mirrors wait_until_ready with its default budget of 600 attempts. -/
def wait_until_ready (polls : Nat → Poll) : Except String (Bool × String) :=
  waitAux polls 0 waitMaxAttempts

/-- Mirrors peek_then_commit_caption: empty caption list yields the
empty caption, and the pointer advances in every non-raising case. -/
def peek_then_commit_caption (env : Env) (st : RotState) :
    Except String (String × RotState) :=
  match env.fetchLines with
  | .error e => .error e
  | .ok lines =>
    .ok (if lines.isEmpty then "" else lines.getD (st.caption_idx % lines.length) "",
         {st with caption_idx := st.caption_idx + 1})

/-- Mirrors publish_selected_carousel: empty selection raises
immediately; then uploads, caption commit (when no caption or an empty
caption is passed), container creation, readiness wait, publish, and
marking the selected images used after success. -/
def publish_selected_carousel (env : Env) (caption : Option String)
    (selected : List String) (st : RotState) : Except String String × RotState :=
  if selected.isEmpty then (.error "No slides selected", st)
  else
    match uploadAll env ((List.range selected.length).map (fun j => j + 1)) with
    | .error e => (.error e, st)
    | .ok _ =>
      let capRes := match caption with
        | some c => if c = "" then peek_then_commit_caption env st else .ok (c, st)
        | none => peek_then_commit_caption env st
      match capRes with
      | .error e => (.error e, st)
      | .ok (_cap, st1) =>
        match env.createCarousel with
        | .error e => (.error e, st1)
        | .ok _ =>
          match env.waitCarousel with
          | .error e => (.error e, st1)
          | .ok (false, resp) =>
            (.error ("Carousel container failed readiness. Info: " ++ resp), st1)
          | .ok (true, _) =>
            match env.publishCreation with
            | .error e => (.error e, st1)
            | .ok media => (.ok media, mark_images_used st1 selected)

/-- The JSON body of a publish request (request.get_json fields the
endpoint and the background task read). -/
structure Payload where
  images : Option (List String)
  video : Option String
  caption : Option String
deriving DecidableEq, Repr

/-- The two synchronous responses of the publish endpoint. -/
inductive HttpResp where
  | badRequest (msg : String)
  | accepted (msg : String)
deriving DecidableEq, Repr

/-- Python falsiness of an optional string field. -/
def falsyOptStr : Option String → Bool
  | none => true
  | some s => s = ""

/-- The acknowledgement message of the publish endpoint. -/
def pubAcceptMsg : String :=
  "Publishing started in background. Check Telegram for final status."

/-- Mirrors the publish route: bounds-check the index, reject a reel
publish without a video synchronously, accept everything else and hand
it to the background thread. -/
def publish_endpoint (accounts : List Cfg) (idx : Nat) (payload : Payload) : HttpResp :=
  if idx < accounts.length then
    let acct := accounts.getD idx default
    if acct.type_ = "reel" && falsyOptStr payload.video then .badRequest "Missing video"
    else .accepted pubAcceptMsg
  else .badRequest "Invalid account index"

/-- What the per-account remote mirror entry may hold (dict keys are
optional). -/
structure RemoteState where
  video_used : Option (List String)
  image_used : Option (List String)
  caption_idx : Option Nat
  image_idx : Option Nat
deriving DecidableEq, Repr

/-- The local state files of one account, each possibly absent. -/
structure LocalFS where
  video_used_file : Option (List String)
  image_used_file : Option (List String)
  caption_file : Option Nat
  image_file : Option Nat
deriving DecidableEq, Repr

/-- save_used_list on the file-system model; the second component counts
asynchronous mirror pushes (one when sync is set). -/
def save_used_list_fs (fs : LocalFS) (used : List String) (sync : Bool) : LocalFS × Nat :=
  ({fs with video_used_file := some used}, if sync then 1 else 0)

/-- save_image_used_list on the file-system model. -/
def save_image_used_list_fs (fs : LocalFS) (used : List String) (sync : Bool) : LocalFS × Nat :=
  ({fs with image_used_file := some used}, if sync then 1 else 0)

/-- save_last_index for the caption key on the file-system model. -/
def save_caption_index_fs (fs : LocalFS) (idx : Nat) (sync : Bool) : LocalFS × Nat :=
  ({fs with caption_file := some idx}, if sync then 1 else 0)

/-- save_last_index for the image key on the file-system model. -/
def save_image_index_fs (fs : LocalFS) (idx : Nat) (sync : Bool) : LocalFS × Nat :=
  ({fs with image_file := some idx}, if sync then 1 else 0)

/-- Mirrors restore_from_remote_if_needed: skip when either used file
exists locally; skip when the remote entry is missing or empty (Python
falsiness of the fetched dict); otherwise materialize each present key
with sync=False.  The second component counts mirror pushes. -/
def restore_from_remote_if_needed (remote : Option RemoteState) (fs : LocalFS) :
    LocalFS × Nat :=
  if fs.video_used_file.isSome || fs.image_used_file.isSome then (fs, 0)
  else
    match remote with
    | none => (fs, 0)
    | some r =>
      if r = (⟨none, none, none, none⟩ : RemoteState) then (fs, 0)
      else
        let s1 := match r.video_used with
          | some v => save_used_list_fs fs v false
          | none => (fs, 0)
        let s2 := match r.image_used with
          | some v => save_image_used_list_fs s1.1 v false
          | none => (s1.1, 0)
        let s3 := match r.caption_idx with
          | some v => save_caption_index_fs s2.1 v false
          | none => (s2.1, 0)
        let s4 := match r.image_idx with
          | some v => save_image_index_fs s3.1 v false
          | none => (s3.1, 0)
        (s4.1, s1.2 + s2.2 + s3.2 + s4.2)

/-- A configured fire time (hour, minute). -/
structure HM where
  hour : Nat
  minute : Nat
deriving DecidableEq, Repr

/-- The scheduler-relevant fields of one account entry. -/
structure SAcct where
  name : String
  schedule_enabled : Option String
  schedule_times : Option String
deriving DecidableEq, Repr

/-- Python-style whitespace characters for strip(). -/
def isSpaceChar (c : Char) : Bool :=
  c = ' ' || c = '\t' || c = '\n' || c = '\r'

/-- str.strip on a character list. -/
def trimL (l : List Char) : List Char :=
  ((l.dropWhile isSpaceChar).reverse.dropWhile isSpaceChar).reverse

/-- str.split(sep) on a character list. -/
def splitOnChar (sep : Char) : List Char → List (List Char)
  | [] => [[]]
  | c :: cs =>
    let r := splitOnChar sep cs
    if c = sep then [] :: r
    else
      match r with
      | [] => [[c]]
      | h :: t => (c :: h) :: t

/-- Python int() of a piece of a time string (whitespace tolerated,
non-digit content rejected). -/
def parseIntChars (l : List Char) : Option Nat :=
  let t := trimL l
  if t.isEmpty then none
  else if t.all Char.isDigit then some (digitsToNat t) else none

/-- One comma-separated part of a schedule_times string: strip it, skip
it when empty or without a colon, parse h:m, and keep it only in range
(invalid parts are silently dropped, as in the source). -/
def parseTimePart (p : List Char) : Option HM :=
  let t := trimL p
  if t.isEmpty then none
  else if t.contains ':' then
    match splitOnChar ':' t with
    | [hs, ms] =>
      match parseIntChars hs, parseIntChars ms with
      | some h, some m => if h ≤ 23 && m ≤ 59 then some ⟨h, m⟩ else none
      | _, _ => none
    | _ => none
  else none

/-- Mirrors parse_account_times: None for a missing or blank string, the
parsed parts otherwise, and None again when nothing parsed. -/
def parse_account_times : Option String → Option (List HM)
  | none => none
  | some s =>
    if (trimL s.data).isEmpty then none
    else
      let times := (splitOnChar ',' s.data).filterMap parseTimePart
      if times.isEmpty then none else some times

/-- One pass of the run_schedule_loop body over the account list: launch
each enabled account whose effective times match the current minute and
whose recorded last-fired minute differs from it, recording the launch.
Returns the updated last_triggers map and the launched names in order. -/
def schedTickGo (gts : List HM) (nowH nowM : Nat) :
    List SAcct → (String → Option Nat) → List String → (String → Option Nat) × List String
  | [], lt, launched => (lt, launched)
  | acct :: rest, lt, launched =>
    if acct.schedule_enabled = some "on" then
      let effective := (parse_account_times acct.schedule_times).getD gts
      if effective.any (fun t => t.hour == nowH && t.minute == nowM) then
        if lt acct.name = some (nowH * 60 + nowM) then
          schedTickGo gts nowH nowM rest lt launched
        else
          schedTickGo gts nowH nowM rest
            (fun k => if k = acct.name then some (nowH * 60 + nowM) else lt k)
            (launched ++ [acct.name])
      else schedTickGo gts nowH nowM rest lt launched
    else schedTickGo gts nowH nowM rest lt launched

/-- One scheduler tick at the given IST wall-clock minute. -/
def schedTick (accounts : List SAcct) (gts : List HM) (nowH nowM : Nat)
    (last : String → Option Nat) : (String → Option Nat) × List String :=
  schedTickGo gts nowH nowM accounts last []

lemma digitChar_isDigit (m : Nat) : (digitChar m).isDigit = true := by
  rcases m with _|_|_|_|_|_|_|_|_|_ <;> rfl

lemma toDecimalAux_digits : ∀ fuel n : Nat, ∀ c ∈ toDecimalAux fuel n, c.isDigit = true := by
  intro fuel
  induction fuel with
  | zero => intro n c hc; simp [toDecimalAux] at hc
  | succ fuel ih =>
    intro n c hc
    by_cases h10 : n < 10
    · simp [toDecimalAux, h10] at hc
      subst hc; exact digitChar_isDigit n
    · simp [toDecimalAux, h10] at hc
      rcases hc with hc | hc
      · exact ih _ c hc
      · subst hc; exact digitChar_isDigit (n % 10)

lemma toDecimal_digits (n : Nat) : ∀ c ∈ toDecimal n, c.isDigit = true :=
  toDecimalAux_digits (n + 1) n

lemma quoteChar_digit (safe : List Char) (c : Char) (h : c.isDigit = true) :
    quoteChar safe c = [c] := by
  simp [quoteChar, alwaysSafeChar, h]

lemma quoteL_append (safe : List Char) (l1 l2 : List Char) :
    quoteL safe (l1 ++ l2) = quoteL safe l1 ++ quoteL safe l2 := by
  induction l1 with
  | nil => simp [quoteL]
  | cons c cs ih => simp [quoteL, ih]

lemma quoteL_digits (safe : List Char) (l : List Char)
    (h : ∀ c ∈ l, c.isDigit = true) : quoteL safe l = l := by
  induction l with
  | nil => rfl
  | cons c cs ih =>
    have hc : c.isDigit = true := h c (by simp)
    simp [quoteL, quoteChar_digit safe c hc,
          ih (fun d hd => h d (by simp [hd]))]

lemma quoteL_imgName (n : Nat) : quoteL parensSafe (imgNameL n) = handBuiltL n := by
  have himg : imgNameL n = ['i', 'm', 'g', ' ', '('] ++ toDecimal n ++ [')', '.', 'j', 'p', 'g'] := rfl
  have hhb : handBuiltL n =
      ['i', 'm', 'g', '%', '2', '0', '('] ++ toDecimal n ++ [')', '.', 'j', 'p', 'g'] := rfl
  rw [himg, hhb, quoteL_append, quoteL_append,
      quoteL_digits parensSafe (toDecimal n) (toDecimal_digits n),
      show quoteL parensSafe ['i', 'm', 'g', ' ', '('] = ['i', 'm', 'g', '%', '2', '0', '('] from by decide,
      show quoteL parensSafe [')', '.', 'j', 'p', 'g'] = [')', '.', 'j', 'p', 'g'] from by decide]

lemma quote_imageName (n : Nat) :
    quoteStr parensSafe (imageName n) = handBuiltEnc n := by
  simp [quoteStr, imageName, handBuiltEnc, quoteL_imgName]

lemma digitsToNat_append_digit (ds : List Char) (c : Char) :
    digitsToNat (ds ++ [c]) = digitsToNat ds * 10 + digitVal c := by
  simp [digitsToNat, List.foldl_append]

lemma digitVal_digitChar (d : Nat) (h : d < 10) : digitVal (digitChar d) = d := by
  interval_cases d <;> rfl

lemma digitsToNat_toDecimalAux : ∀ fuel n : Nat, n < 10 ^ fuel →
    digitsToNat (toDecimalAux fuel n) = n := by
  intro fuel
  induction fuel with
  | zero => intro n hn; simp at hn; subst hn; rfl
  | succ fuel ih =>
    intro n hn
    by_cases h10 : n < 10
    · simp [toDecimalAux, h10, digitsToNat, digitVal_digitChar n h10]
    · have hdiv : n / 10 < 10 ^ fuel := by
        rw [Nat.div_lt_iff_lt_mul (by norm_num)]
        calc n < 10 ^ (fuel + 1) := hn
          _ = 10 ^ fuel * 10 := by ring
      simp [toDecimalAux, h10, digitsToNat_append_digit, ih _ hdiv,
            digitVal_digitChar (n % 10) (Nat.mod_lt _ (by norm_num))]
      omega

lemma digitsToNat_toDecimal (n : Nat) : digitsToNat (toDecimal n) = n := by
  have : n < 10 ^ (n + 1) := by
    calc n < 2 ^ n := Nat.lt_two_pow n
      _ ≤ 10 ^ n := Nat.pow_le_pow_left (by norm_num) n
      _ ≤ 10 ^ (n + 1) := Nat.pow_le_pow_right (by norm_num) (Nat.le_succ n)
  exact digitsToNat_toDecimalAux (n + 1) n this

lemma takeDigits_digits_then (ds : List Char) (c : Char) (rest : List Char)
    (hds : ∀ d ∈ ds, d.isDigit = true) (hc : c.isDigit = false) :
    takeDigits (ds ++ c :: rest) = (ds, c :: rest) := by
  induction ds with
  | nil => simp [takeDigits, hc]
  | cons d dtail ih =>
    have hd := hds d (by simp)
    simp [takeDigits, hd, ih (fun x hx => hds x (by simp [hx]))]

lemma toDecimal_ne_nil (n : Nat) : toDecimal n ≠ [] := by
  unfold toDecimal toDecimalAux
  by_cases h : n < 10 <;> simp [h]

lemma parseParenNum_cons_ne (c : Char) (cs : List Char) (h : ¬ c = '(') :
    parseParenNum (c :: cs) = parseParenNum cs := by
  rw [parseParenNum, if_neg h]

lemma parseParenNum_found (cs ds rest : List Char)
    (h : takeDigits cs = (ds, ')' :: rest)) (hne : ds ≠ []) :
    parseParenNum ('(' :: cs) = some (digitsToNat ds) := by
  obtain ⟨d, dt, rfl⟩ := List.exists_cons_of_ne_nil hne
  rw [parseParenNum, if_pos rfl, h]
  rfl

lemma parseParenNum_imgName (n : Nat) : parseParenNum (imgNameL n) = some n := by
  have himg : imgNameL n =
      'i' :: 'm' :: 'g' :: ' ' :: '(' :: (toDecimal n ++ ')' :: ['.', 'j', 'p', 'g']) := by
    rw [imgNameL]; simp
  rw [himg,
      parseParenNum_cons_ne 'i' _ (by decide),
      parseParenNum_cons_ne 'm' _ (by decide),
      parseParenNum_cons_ne 'g' _ (by decide),
      parseParenNum_cons_ne ' ' _ (by decide),
      parseParenNum_found _ _ _
        (takeDigits_digits_then _ _ _ (toDecimal_digits n) (by decide))
        (toDecimal_ne_nil n),
      digitsToNat_toDecimal]

/-- A concrete carousel account fixture. -/
def cfgFix1 : Cfg := ⟨"carousel", "A", "acct", some 1, some 10, "http://h", ""⟩

/-- A concrete reel account fixture with a 1-item virtual catalog bound. -/
def cfgVidFix : Cfg := ⟨"reel", "B", "acct", none, some 1, "", "http://v"⟩

/-- A fully succeeding environment fixture. -/
def envOk : Env :=
  { fetchLines := .ok ["a", "b", "c", "d", "e", "f", "g"]
    headOk := fun _ => true
    pick := fun _ => 0
    uploadImage := fun _ => .ok "cid"
    waitImage := fun _ => .ok (true, "okresp")
    createCarousel := .ok "creation"
    waitCarousel := .ok (true, "okresp")
    publishCreation := .ok "media"
    uploadReel := .ok "reelcid"
    waitReel := .ok (true, "okresp") }

/-- The environment fixture whose image uploads always fail. -/
def envFailUpload : Env := { envOk with uploadImage := fun _ => .error "Instagram API Error 400" }

/-- C10: for every image index n ≥ 1 the hand-built ruthless encoding
img%20(n).jpg equals quote("img (n).jpg") with safe "()"; consequently
next_images coincides with its generic-branch variant on every account
and state, and the URL get_random_candidate builds for a catalog image
filename is the generic quoted URL on both branches (the preview view,
which always quotes, therefore shows the URLs the publish paths use). -/
theorem claim10_theorem :
    (∀ n : Nat, 1 ≤ n → handBuiltEnc n = quoteStr parensSafe (imageName n)) ∧
    (∀ (cfg : Cfg) (st : RotState), next_images cfg st = next_images_generic cfg st) ∧
    (∀ (cfg : Cfg) (n : Nat), 1 ≤ n →
      grcUrl cfg "image" (imageName n) =
        normBase cfg.base_url ++ "/" ++ quoteStr parensSafe (imageName n)) := by
  have hq : ∀ n : Nat, handBuiltEnc n = quoteStr parensSafe (imageName n) :=
    fun n => (quote_imageName n).symm
  refine ⟨fun n _ => hq n, fun cfg st => ?_, fun cfg n _ => ?_⟩
  · have he : ∀ i : Nat,
        (if isRuthless cfg.statePfx then handBuiltEnc i
         else quoteStr parensSafe (imageName i)) = quoteStr parensSafe (imageName i) := by
      intro i
      by_cases h : isRuthless cfg.statePfx <;> simp [h, hq i]
    unfold next_images next_images_generic
    simp only [he]
  · unfold grcUrl
    by_cases h : isRuthless cfg.statePfx
    · simp only [if_pos rfl, h, if_true]
      rw [show (imageName n).data = imgNameL n from rfl, parseParenNum_imgName]
      simp [hq n]
    · simp [h]

/-- Witness for C10 at index 5 and a concrete account. -/
theorem claim10_witness :
    handBuiltEnc 5 = quoteStr parensSafe (imageName 5) ∧
    next_images cfgFix1 ⟨0, 0, [], []⟩ = next_images_generic cfgFix1 ⟨0, 0, [], []⟩ ∧
    grcUrl cfgFix1 "image" (imageName 5) =
      normBase cfgFix1.base_url ++ "/" ++ quoteStr parensSafe (imageName 5) :=
  ⟨claim10_theorem.1 5 (by norm_num), claim10_theorem.2.1 cfgFix1 ⟨0, 0, [], []⟩,
   claim10_theorem.2.2 cfgFix1 5 (by norm_num)⟩

/-- C6: for the account shape type=carousel, slides_per_post=2,
max_images=10 and stored image pointer 8 (generic encoding branch, any
non-empty base), one next_images call returns the URLs of virtual
indices 9 and 10 and stores pointer 10, and the following call then
returns the URLs of indices 1 and 2. -/
theorem claim6_theorem (base pfx : String) (st : RotState)
    (hb : ¬ normBase base = "") (hr : isRuthless pfx = false) (hidx : st.image_idx = 8) :
    next_images ⟨"carousel", "acct6", pfx, some 2, some 10, base, ""⟩ st =
      .ok ([normBase base ++ "/" ++ "img%20(9).jpg", normBase base ++ "/" ++ "img%20(10).jpg"],
           {st with image_idx := 10}) ∧
    next_images ⟨"carousel", "acct6", pfx, some 2, some 10, base, ""⟩ {st with image_idx := 10} =
      .ok ([normBase base ++ "/" ++ "img%20(1).jpg", normBase base ++ "/" ++ "img%20(2).jpg"],
           {st with image_idx := 2}) := by
  constructor
  · unfold next_images
    simp only [hidx, hr]
    rw [if_neg hb, if_neg (by norm_num)]
    simp [List.range_succ, show quoteStr parensSafe (imageName 9) = "img%20(9).jpg" from by decide,
          show quoteStr parensSafe (imageName 10) = "img%20(10).jpg" from by decide]
  · unfold next_images
    simp only [hr]
    rw [if_neg hb, if_neg (by norm_num)]
    simp [List.range_succ, show quoteStr parensSafe (imageName 1) = "img%20(1).jpg" from by decide,
          show quoteStr parensSafe (imageName 2) = "img%20(2).jpg" from by decide]

/-- Witness for C6 with base http://h. -/
theorem claim6_witness :
    next_images ⟨"carousel", "acct6", "acct", some 2, some 10, "http://h", ""⟩ ⟨0, 8, [], []⟩ =
      .ok (["http://h/img%20(9).jpg", "http://h/img%20(10).jpg"], ⟨0, 10, [], []⟩) ∧
    next_images ⟨"carousel", "acct6", "acct", some 2, some 10, "http://h", ""⟩ ⟨0, 10, [], []⟩ =
      .ok (["http://h/img%20(1).jpg", "http://h/img%20(2).jpg"], ⟨0, 2, [], []⟩) :=
  claim6_theorem "http://h" "acct" ⟨0, 8, [], []⟩ (by decide) (by decide) rfl

/-- C5 counterexample: with K = 2 captions and stored pointer 1, one
next_caption call returns the caption at index 1 mod 2 but stores pointer
2, whereas the claim requires the stored pointer to be (1+1) mod 2 = 0. -/
theorem claim5_counterexample :
    next_caption ["a", "b"] ⟨1, 0, [], []⟩ = .ok ("b", ⟨2, 0, [], []⟩) ∧
    (2 : Nat) ≠ (1 + 1) % 2 := by decide

/-- C5 (amended): N consecutive next_caption calls on a catalog of size
K return the captions at indices start, start+1, ... taken mod K, and
the stored pointer afterwards is start+N un-reduced (the modulo is
applied at read time, so subsequent selection behaves as if the pointer
were (start+N) mod K). -/
theorem claim5_theorem (lines : List String) (h : lines ≠ []) (N : Nat) (st : RotState) :
    captionRuns lines N st =
      ((List.range N).map (fun i => lines.getD ((st.caption_idx + i) % lines.length) ""),
       {st with caption_idx := st.caption_idx + N}) := by
  induction N generalizing st with
  | zero => simp [captionRuns]
  | succ N ih =>
    have hne : lines.isEmpty = false := by simpa [List.isEmpty_iff] using h
    rw [captionRuns, next_caption, if_neg (by simp [hne])]
    simp only [ih]
    rw [List.range_succ_eq_map]
    simp only [List.map_cons, List.map_map, Nat.add_zero]
    refine congrArg₂ Prod.mk (congrArg₂ List.cons rfl ?_) ?_
    · apply List.map_congr_left
      intro i _
      simp only [Function.comp_apply]
      congr 2
      omega
    · congr 1
      omega

/-- Witness for C5: three calls on a 2-caption catalog from pointer 1. -/
theorem claim5_witness :
    captionRuns ["a", "b"] 3 ⟨1, 0, [], []⟩ =
      ((List.range 3).map (fun i => (["a", "b"] : List String).getD ((1 + i) % 2) ""),
       ⟨4, 0, [], []⟩) :=
  claim5_theorem ["a", "b"] (by decide) 3 ⟨1, 0, [], []⟩

lemma waitAux_nonterminal (polls : Nat → Poll)
    (h : ∀ j s b, polls j = .resp s b → strUpper s ≠ "FINISHED" ∧ strUpper s ≠ "ERROR") :
    ∀ rem i, waitAux polls i rem = .error "NameError: name last_resp is not defined" := by
  intro rem
  induction rem with
  | zero => intro i; rfl
  | succ rem ih =>
    intro i
    cases hp : polls i with
    | exn => simp only [waitAux, hp]; exact ih (i + 1)
    | resp s b =>
      have h2 := h i s b hp
      simp only [waitAux, hp]
      rw [if_neg h2.1, if_neg h2.2]
      exact ih (i + 1)

/-- C2: wait_until_ready returns success at the first FINISHED poll,
returns failure with the response at the first ERROR poll, keeps polling
over a transport exception, but when the 600-attempt budget is exhausted
with only non-terminal statuses the source executes return False,
last_resp where last_resp is an undefined name, so the call raises
NameError instead of returning the failure value the claim requires. -/
theorem claim2_theorem :
    wait_until_ready (fun _ => Poll.resp "IN_PROGRESS" "resp") =
      .error "NameError: name last_resp is not defined" ∧
    wait_until_ready (fun i => if i = 0 then Poll.exn else Poll.resp "FINISHED" "okbody") =
      .ok (true, "okbody") ∧
    wait_until_ready (fun _ => Poll.resp "ERROR" "badbody") = .ok (false, "badbody") := by
  refine ⟨?_, by decide, by decide⟩
  exact waitAux_nonterminal _
    (fun j s b hp => by cases hp; exact ⟨by decide, by decide⟩) waitMaxAttempts 0

/-- C3: evaluating the code on the intended scenario: with the video
used-set holding the entire 2-item catalog, get_random_candidate resets
the persisted used-set to empty and picks from the full catalog, but the
subsequent mark_video_used stores the percent-encoded URL basename
vid%20(1).mp4 rather than the chosen catalog filename vid (1).mp4: the
resulting used-set has size 1 yet does not contain the chosen filename,
so the next selection's used filter cannot exclude the chosen video. -/
theorem claim3_theorem :
    get_random_candidate { envOk with pick := fun _ => 1 } cfgVidFix "video"
        ⟨0, 0, [], ["vid.mp4", "vid (1).mp4"]⟩ =
      (some ⟨"http://v/vid%20(1).mp4", "vid (1).mp4"⟩, ⟨0, 0, [], []⟩, 1) ∧
    mark_video_used ⟨0, 0, [], []⟩ "http://v/vid%20(1).mp4" =
      ⟨0, 0, [], ["vid%20(1).mp4"]⟩ ∧
    ¬ ("vid (1).mp4" ∈ (⟨0, 0, [], ["vid%20(1).mp4"]⟩ : RotState).video_used) ∧
    (⟨0, 0, [], ["vid%20(1).mp4"]⟩ : RotState).video_used.length = 1 := by decide

/-- C1 counterexample: a manual carousel run with a forced upload
failure (a failing non-optional step before commenting) advances both
sequential pointers at selection time, so the post-run rotation state
differs from the pre-run state and the next sequential selection
returns different images than it would have before the failed run. -/
theorem claim1_counterexample :
    run_account envFailUpload cfgFix1 "manual" ⟨5, 5, [], []⟩ = (none, ⟨6, 6, [], []⟩) ∧
    (⟨6, 6, [], []⟩ : RotState) ≠ ⟨5, 5, [], []⟩ ∧
    next_images cfgFix1 ⟨6, 6, [], []⟩ ≠ next_images cfgFix1 ⟨5, 5, [], []⟩ := by decide

/-- C9 counterexample: a publish request for a carousel account whose
payload has no images is accepted (202, handed to the background
thread), not rejected with a synchronous validation failure. -/
theorem claim9_counterexample :
    publish_endpoint [cfgFix1] 0 ⟨none, none, none⟩ = .accepted pubAcceptMsg ∧
    HttpResp.accepted pubAcceptMsg ≠ HttpResp.badRequest "Missing images" := by decide

/-- C9 (amended): only the reel/video case is validated synchronously: a
reel-account request with a falsy video field gets an immediate 400
error; every other in-range request, including a carousel request with
no images, is accepted with 202, and the empty-selection failure of such
a carousel publish is raised in the background by
publish_selected_carousel (No slides selected, state unchanged) and
surfaced via the status tracker. -/
theorem claim9_theorem (accounts : List Cfg) (idx : Nat) (payload : Payload)
    (env : Env) (caption : Option String) (st : RotState)
    (hidx : idx < accounts.length) :
    ((accounts.getD idx default).type_ = "reel" → falsyOptStr payload.video = true →
      publish_endpoint accounts idx payload = .badRequest "Missing video") ∧
    (¬ ((accounts.getD idx default).type_ = "reel" ∧ falsyOptStr payload.video = true) →
      publish_endpoint accounts idx payload = .accepted pubAcceptMsg) ∧
    publish_selected_carousel env caption [] st = (.error "No slides selected", st) := by
  refine ⟨fun h1 h2 => ?_, fun h => ?_, rfl⟩
  · unfold publish_endpoint
    rw [if_pos hidx, if_pos (by rw [decide_eq_true h1, h2]; rfl)]
  · unfold publish_endpoint
    rw [if_pos hidx, if_neg (fun hc => h (by
      rw [Bool.and_eq_true] at hc
      exact ⟨of_decide_eq_true hc.1, hc.2⟩))]

/-- Witness for C9: a reel account with no video is rejected
synchronously. -/
theorem claim9_witness :
    publish_endpoint [cfgVidFix] 0 ⟨none, none, none⟩ = .badRequest "Missing video" :=
  (claim9_theorem [cfgVidFix] 0 ⟨none, none, none⟩ envOk none ⟨0, 0, [], []⟩ (by decide)).1
    rfl rfl

lemma grc_snd_fst (env : Env) (cfg : Cfg) (kind : String) (st : RotState) :
    (get_random_candidate env cfg kind st).2.1 = grcStateAfter cfg kind st := by
  unfold get_random_candidate
  split <;> rfl

lemma grcStateAfter_cases (cfg : Cfg) (kind : String) (st : RotState) :
    ((grcStateAfter cfg kind st).image_used = st.image_used ∨
     (grcStateAfter cfg kind st).image_used = []) ∧
    ((grcStateAfter cfg kind st).video_used = st.video_used ∨
     (grcStateAfter cfg kind st).video_used = []) := by
  unfold grcStateAfter
  split_ifs <;> simp

lemma grc_state (env : Env) (cfg : Cfg) (kind : String) (st : RotState) :
    ((get_random_candidate env cfg kind st).2.1.image_used = st.image_used ∨
     (get_random_candidate env cfg kind st).2.1.image_used = []) ∧
    ((get_random_candidate env cfg kind st).2.1.video_used = st.video_used ∨
     (get_random_candidate env cfg kind st).2.1.video_used = []) := by
  rw [grc_snd_fst]
  exact grcStateAfter_cases cfg kind st

lemma grcLoop_probes (env : Env) (cfg : Cfg) (kind : String) :
    ∀ fuel unused, (grcLoop env cfg kind fuel unused).2 ≤ fuel := by
  intro fuel
  induction fuel with
  | zero => intro unused; simp [grcLoop]
  | succ fuel ih =>
    intro unused
    unfold grcLoop
    dsimp only
    split_ifs with h1 h2
    · exact Nat.zero_le _
    · exact Nat.succ_le_succ (Nat.zero_le fuel)
    · exact Nat.succ_le_succ (ih _)

lemma grc_probes (env : Env) (cfg : Cfg) (kind : String) (st : RotState) :
    (get_random_candidate env cfg kind st).2.2 ≤ 50 := by
  unfold get_random_candidate
  split
  · simp
  · exact grcLoop_probes env cfg kind 50 (grcPool cfg kind st)

lemma grc_no_reset (env : Env) (cfg : Cfg) (kind : String) (st : RotState)
    (h : ∃ x ∈ grcItems cfg kind, x ∉ grcUsedSet kind st) :
    (get_random_candidate env cfg kind st).2.1 = st := by
  obtain ⟨x, hx, hnx⟩ := h
  have hne : (grcUnused cfg kind st).isEmpty = false := by
    rw [List.isEmpty_eq_false_iff_exists_mem]
    exact ⟨x, List.mem_filter.mpr ⟨hx, by simpa using hnx⟩⟩
  rw [grc_snd_fst]
  unfold grcStateAfter
  rw [hne]
  simp

lemma pick_succ_snd (env : Env) (cfg : Cfg) (k : Nat) (st : RotState) :
    (pickRandomImages env cfg (k + 1) st).2 =
    (pickRandomImages env cfg k (get_random_candidate env cfg "image" st).2.1).2 := by
  cases hc : (get_random_candidate env cfg "image" st).1 with
  | none => simp [pickRandomImages, hc]
  | some c => simp [pickRandomImages, hc]

lemma pick_state (env : Env) (cfg : Cfg) :
    ∀ (k : Nat) (st : RotState),
      ((pickRandomImages env cfg k st).2.image_used = st.image_used ∨
       (pickRandomImages env cfg k st).2.image_used = []) ∧
      ((pickRandomImages env cfg k st).2.video_used = st.video_used ∨
       (pickRandomImages env cfg k st).2.video_used = []) := by
  intro k
  induction k with
  | zero => intro st; simp [pickRandomImages]
  | succ k ih =>
    intro st
    rw [pick_succ_snd]
    have hg := grc_state env cfg "image" st
    have hr := ih (get_random_candidate env cfg "image" st).2.1
    constructor
    · rcases hr.1 with h | h
      · rw [h]; exact hg.1
      · right; exact h
    · rcases hr.2 with h | h
      · rw [h]; exact hg.2
      · right; exact h

lemma next_caption_ok_state (lines : List String) (st : RotState) (c : String)
    (st' : RotState) (h : next_caption lines st = .ok (c, st')) :
    st'.image_used = st.image_used ∧ st'.video_used = st.video_used := by
  unfold next_caption at h
  by_cases he : lines.isEmpty
  · rw [if_pos he] at h; cases h
  · rw [if_neg he] at h
    injection h with h
    injection h with h1 h2
    rw [← h2]
    exact ⟨rfl, rfl⟩

lemma next_captionE_ok_state (env : Env) (st : RotState) (c : String)
    (st' : RotState) (h : next_captionE env st = .ok (c, st')) :
    st'.image_used = st.image_used ∧ st'.video_used = st.video_used := by
  unfold next_captionE at h
  cases hf : env.fetchLines with
  | error e => rw [hf] at h; cases h
  | ok lines => rw [hf] at h; exact next_caption_ok_state lines st c st' h

lemma next_images_ok_state (cfg : Cfg) (st : RotState) (imgs : List String)
    (st' : RotState) (h : next_images cfg st = .ok (imgs, st')) :
    st'.image_used = st.image_used ∧ st'.video_used = st.video_used := by
  unfold next_images at h
  by_cases hb : normBase cfg.base_url = ""
  · rw [if_pos hb] at h; cases h
  · rw [if_neg hb] at h
    by_cases hz : cfg.max_images.getD 10000 = 0
    · rw [if_pos hz] at h; cases h
    · rw [if_neg hz] at h
      injection h with h
      injection h with h1 h2
      rw [← h2]
      exact ⟨rfl, rfl⟩

lemma carouselSelect_state (env : Env) (cfg : Cfg) (mode : String) (st : RotState) :
    ((carouselSelect env cfg mode st).2.image_used = st.image_used ∨
     (carouselSelect env cfg mode st).2.image_used = []) ∧
    ((carouselSelect env cfg mode st).2.video_used = st.video_used ∨
     (carouselSelect env cfg mode st).2.video_used = []) := by
  unfold carouselSelect
  by_cases hm : mode = "schedule"
  · rw [if_pos hm]
    have hp := pick_state env cfg (cfg.slides_per_post.getD 1) st
    by_cases hsel : (dedupKeepFirst (pickRandomImages env cfg (cfg.slides_per_post.getD 1) st).1).isEmpty
    · rw [if_pos hsel]
      exact hp
    · rw [if_neg hsel]
      split
      · exact hp
      · rename_i c st2 hc
        have h2 := next_captionE_ok_state env _ c st2 hc
        refine ⟨?_, ?_⟩
        · show st2.image_used = st.image_used ∨ st2.image_used = []
          rw [h2.1]; exact hp.1
        · show st2.video_used = st.video_used ∨ st2.video_used = []
          rw [h2.2]; exact hp.2
  · rw [if_neg hm]
    split
    · simp
    · rename_i imgs st1 hi
      have h1 := next_images_ok_state cfg st imgs st1 hi
      split
      · exact ⟨Or.inl h1.1, Or.inl h1.2⟩
      · rename_i c st2 hc
        have h2 := next_captionE_ok_state env st1 c st2 hc
        refine ⟨Or.inl ?_, Or.inl ?_⟩
        · show st2.image_used = st.image_used
          rw [h2.1, h1.1]
        · show st2.video_used = st.video_used
          rw [h2.2, h1.2]

lemma reelSelect_state (env : Env) (cfg : Cfg) (mode : String) (st : RotState) :
    ((reelSelect env cfg mode st).2.image_used = st.image_used ∨
     (reelSelect env cfg mode st).2.image_used = []) ∧
    ((reelSelect env cfg mode st).2.video_used = st.video_used ∨
     (reelSelect env cfg mode st).2.video_used = []) := by
  unfold reelSelect
  by_cases hm : mode = "schedule"
  · rw [if_pos hm]
    exact grc_state env cfg "video" st
  · rw [if_neg hm]
    cases hs : nextVideoShim cfg st with
    | some u => simp
    | none => simp

lemma carouselPublishPhase_none (env : Env) (mode : String) (imgs : List String)
    (st1 : RotState) (h : (carouselPublishPhase env mode imgs st1).1 = none) :
    (carouselPublishPhase env mode imgs st1).2 = st1 := by
  unfold carouselPublishPhase at h ⊢
  cases hu : uploadAll env ((List.range imgs.length).map (fun j => j + 1)) with
  | error e => simp only [hu]
  | ok cids =>
    simp only [hu] at h ⊢
    cases hc : env.createCarousel with
    | error e => simp only [hc]
    | ok cr =>
      simp only [hc] at h ⊢
      cases hp : env.publishCreation with
      | error e => simp only [hp]
      | ok media => simp only [hp] at h; cases h

lemma reelPublishPhase_none (env : Env) (mode : String) (vidUrl : String)
    (st2 : RotState) (h : (reelPublishPhase env mode vidUrl st2).1 = none) :
    (reelPublishPhase env mode vidUrl st2).2 = st2 := by
  unfold reelPublishPhase at h ⊢
  cases hu : env.uploadReel with
  | error e => simp only [hu]
  | ok cr =>
    simp only [hu] at h ⊢
    cases hw : env.waitReel with
    | error e => simp only [hw]
    | ok p =>
      rcases p with ⟨b, resp⟩
      cases b
      · simp only [hw]
      · simp only [hw] at h ⊢
        cases hp : env.publishCreation with
        | error e => simp only [hp]
        | ok media => simp only [hp] at h; cases h

/-- C1 (amended): a run_account pipeline that fails at any step before
commenting never adds an entry to either used-set (content is marked
consumed only after a successful publish); however, the sequential
pointers caption_idx and image_idx are advanced at selection time and
are not rolled back on failure, and the full-exhaustion reset may clear
a used-set, so the whole rotation state is not byte-identical. -/
theorem claim1_theorem (env : Env) (cfg : Cfg) (mode : String) (st : RotState)
    (hfail : (run_account env cfg mode st).1 = none) :
    (∀ f, f ∈ (run_account env cfg mode st).2.image_used → f ∈ st.image_used) ∧
    (∀ f, f ∈ (run_account env cfg mode st).2.video_used → f ∈ st.video_used) := by
  have key : (run_account env cfg mode st).1 = none →
             ((run_account env cfg mode st).2.image_used = st.image_used ∨
              (run_account env cfg mode st).2.image_used = []) ∧
             ((run_account env cfg mode st).2.video_used = st.video_used ∨
              (run_account env cfg mode st).2.video_used = []) := by
    unfold run_account
    by_cases ht : cfg.type_ = "carousel"
    · rw [if_pos ht]
      have hsel := carouselSelect_state env cfg mode st
      split
      · rename_i st1 heq
        intro _
        rw [heq] at hsel
        exact hsel
      · rename_i imgs cap st1 heq
        intro hfail2
        rw [heq] at hsel
        rw [carouselPublishPhase_none env mode imgs st1 hfail2]
        exact hsel
    · rw [if_neg ht]
      have hsel := reelSelect_state env cfg mode st
      split
      · rename_i st1 heq
        intro _
        rw [heq] at hsel
        exact hsel
      · rename_i vidUrl st1 heq
        rw [heq] at hsel
        split
        · intro _
          exact hsel
        · rename_i c st2 hcap
          intro hfail2
          have h2 := next_captionE_ok_state env st1 c st2 hcap
          rw [reelPublishPhase_none env mode vidUrl st2 hfail2]
          refine ⟨?_, ?_⟩
          · rw [h2.1]; exact hsel.1
          · rw [h2.2]; exact hsel.2
  have key2 := key hfail
  constructor
  · intro f hf
    rcases key2.1 with he | he
    · rw [he] at hf; exact hf
    · rw [he] at hf; cases hf
  · intro f hf
    rcases key2.2 with he | he
    · rw [he] at hf; exact hf
    · rw [he] at hf; cases hf

/-- Witness for C1 (amended): the failing manual carousel run leaves
both used-sets empty, contained in the pre-run used-sets. -/
theorem claim1_witness :
    (∀ f, f ∈ (run_account envFailUpload cfgFix1 "manual" ⟨5, 5, [], []⟩).2.image_used →
       f ∈ ([] : List String)) ∧
    (∀ f, f ∈ (run_account envFailUpload cfgFix1 "manual" ⟨5, 5, [], []⟩).2.video_used →
       f ∈ ([] : List String)) :=
  claim1_theorem envFailUpload cfgFix1 "manual" ⟨5, 5, [], []⟩ (by decide)

/-- A concrete carousel account with a 1-item virtual image catalog. -/
def cfgImg1 : Cfg := ⟨"carousel", "A", "acct", some 1, some 1, "http://h", ""⟩

/-- C4 counterexample: with the 1-item image catalog fully used and
every existence probe failing, get_random_candidate returns none, yet
the persisted used-set was cleared by the exhaustion reset, so the
persisted rotation state is not unchanged. -/
theorem claim4_counterexample :
    get_random_candidate { envOk with headOk := fun _ => false } cfgImg1 "image"
        ⟨0, 0, ["img (1).jpg"], []⟩ =
      (none, ⟨0, 0, [], []⟩, 1) ∧
    (⟨0, 0, [], []⟩ : RotState) ≠ ⟨0, 0, ["img (1).jpg"], []⟩ := by decide

/-- C4 (amended): every get_random_candidate call performs at most 50
existence probes; probe failures never add anything to the persisted
used-sets; and when at least one catalog item is unused at entry (so
the exhaustion reset does not fire) the call leaves the persisted
rotation state unchanged - when the used-set was already exhausted, the
persisted reset to an empty used-set survives even a none result. -/
theorem claim4_theorem (env : Env) (cfg : Cfg) (kind : String) (st : RotState) :
    (get_random_candidate env cfg kind st).2.2 ≤ 50 ∧
    ((∀ f, f ∈ (get_random_candidate env cfg kind st).2.1.image_used → f ∈ st.image_used) ∧
     (∀ f, f ∈ (get_random_candidate env cfg kind st).2.1.video_used → f ∈ st.video_used)) ∧
    ((∃ x ∈ grcItems cfg kind, x ∉ grcUsedSet kind st) →
      (get_random_candidate env cfg kind st).2.1 = st) := by
  refine ⟨grc_probes env cfg kind st, ?_, grc_no_reset env cfg kind st⟩
  have h := grc_state env cfg kind st
  constructor
  · intro f hf
    rcases h.1 with he | he
    · rw [he] at hf; exact hf
    · rw [he] at hf; cases hf
  · intro f hf
    rcases h.2 with he | he
    · rw [he] at hf; exact hf
    · rw [he] at hf; cases hf

/-- Witness for C4 at a fresh 1-item catalog with failing probes: the
persisted state is unchanged. -/
theorem claim4_witness :
    (get_random_candidate { envOk with headOk := fun _ => false } cfgImg1 "image"
        ⟨0, 0, [], []⟩).2.1 = ⟨0, 0, [], []⟩ :=
  (claim4_theorem { envOk with headOk := fun _ => false } cfgImg1 "image"
    ⟨0, 0, [], []⟩).2.2 (by decide)

/-- C7: with all local rotation-state artifacts absent and a remote
mirror entry present, running the recovery path twice materializes the
same local state as running it once, and the materialization performs
no push back to the remote mirror. -/
theorem claim7_theorem (fs : LocalFS) (r : RemoteState)
    (h1 : fs.video_used_file = none) (h2 : fs.image_used_file = none)
    (h3 : fs.caption_file = none) (h4 : fs.image_file = none) :
    restore_from_remote_if_needed (some r) (restore_from_remote_if_needed (some r) fs).1 =
      restore_from_remote_if_needed (some r) fs ∧
    (restore_from_remote_if_needed (some r) fs).2 = 0 := by
  rcases fs with ⟨fv, fi, fc, fg⟩
  simp only at h1 h2 h3 h4
  subst h1; subst h2; subst h3; subst h4
  rcases r with ⟨rv, ri, rc, rg⟩
  cases rv <;> cases ri <;> cases rc <;> cases rg <;>
    simp [restore_from_remote_if_needed, save_used_list_fs, save_image_used_list_fs,
          save_caption_index_fs, save_image_index_fs]

/-- Witness for C7 with a remote entry holding a used list and a
caption pointer. -/
theorem claim7_witness :
    restore_from_remote_if_needed (some ⟨some ["v"], none, some 3, none⟩)
        (restore_from_remote_if_needed (some ⟨some ["v"], none, some 3, none⟩)
          ⟨none, none, none, none⟩).1 =
      restore_from_remote_if_needed (some ⟨some ["v"], none, some 3, none⟩)
        ⟨none, none, none, none⟩ ∧
    (restore_from_remote_if_needed (some ⟨some ["v"], none, some 3, none⟩)
        ⟨none, none, none, none⟩).2 = 0 :=
  claim7_theorem ⟨none, none, none, none⟩ ⟨some ["v"], none, some 3, none⟩ rfl rfl rfl rfl

lemma schedTickGo_blocked (gts : List HM) (nowH nowM : Nat) :
    ∀ (as : List SAcct) (lt : String → Option Nat) (L : List String) (name : String),
      lt name = some (nowH * 60 + nowM) →
      (schedTickGo gts nowH nowM as lt L).1 name = some (nowH * 60 + nowM) ∧
      (schedTickGo gts nowH nowM as lt L).2.count name = L.count name := by
  intro as
  induction as with
  | nil => intro lt L name h; exact ⟨h, rfl⟩
  | cons a rest ih =>
    intro lt L name h
    unfold schedTickGo
    by_cases he : a.schedule_enabled = some "on"
    · rw [if_pos he]
      by_cases hm : (((parse_account_times a.schedule_times).getD gts).any
          (fun t => t.hour == nowH && t.minute == nowM)) = true
      · rw [if_pos hm]
        by_cases hl : lt a.name = some (nowH * 60 + nowM)
        · rw [if_pos hl]
          exact ih lt L name h
        · rw [if_neg hl]
          have hne : ¬(name = a.name) := fun hn => hl (by rw [← hn]; exact h)
          have hlt' : (fun k => if k = a.name then some (nowH * 60 + nowM) else lt k) name
              = some (nowH * 60 + nowM) := by simp [hne, h]
          have hih := ih (fun k => if k = a.name then some (nowH * 60 + nowM) else lt k)
              (L ++ [a.name]) name hlt'
          refine ⟨hih.1, ?_⟩
          have h0 : ([a.name] : List String).count name = 0 :=
            List.count_eq_zero.mpr (by simp [hne])
          rw [hih.2, List.count_append, h0]
          omega
      · rw [if_neg hm]
        exact ih lt L name h
    · rw [if_neg he]
      exact ih lt L name h

lemma schedTickGo_fires (gts : List HM) (nowH nowM : Nat) :
    ∀ (as : List SAcct) (lt : String → Option Nat) (L : List String) (name : String),
      lt name ≠ some (nowH * 60 + nowM) →
      (∃ a ∈ as, a.name = name ∧ a.schedule_enabled = some "on" ∧
        ((parse_account_times a.schedule_times).getD gts).any
          (fun t => t.hour == nowH && t.minute == nowM) = true) →
      (schedTickGo gts nowH nowM as lt L).1 name = some (nowH * 60 + nowM) ∧
      (schedTickGo gts nowH nowM as lt L).2.count name = L.count name + 1 := by
  intro as
  induction as with
  | nil =>
    intro lt L name hfresh hex
    rcases hex with ⟨b, hb, _⟩
    cases hb
  | cons a rest ih =>
    intro lt L name hfresh hex
    unfold schedTickGo
    by_cases he : a.schedule_enabled = some "on"
    · rw [if_pos he]
      by_cases hm : (((parse_account_times a.schedule_times).getD gts).any
          (fun t => t.hour == nowH && t.minute == nowM)) = true
      · rw [if_pos hm]
        by_cases hl : lt a.name = some (nowH * 60 + nowM)
        · rw [if_pos hl]
          have hanm : ¬(a.name = name) := fun hn => hfresh (by rw [← hn]; exact hl)
          apply ih lt L name hfresh
          rcases hex with ⟨b, hb, hbn, hben, hbm⟩
          rcases List.mem_cons.mp hb with rfl | hbr
          · exact absurd hbn hanm
          · exact ⟨b, hbr, hbn, hben, hbm⟩
        · rw [if_neg hl]
          by_cases hanm : a.name = name
          · subst hanm
            have hlt' : (fun k => if k = a.name then some (nowH * 60 + nowM) else lt k) a.name
                = some (nowH * 60 + nowM) := by simp
            have hb := schedTickGo_blocked gts nowH nowM rest
                (fun k => if k = a.name then some (nowH * 60 + nowM) else lt k)
                (L ++ [a.name]) a.name hlt'
            refine ⟨hb.1, ?_⟩
            have h1 : ([a.name] : List String).count a.name = 1 := by simp
            rw [hb.2, List.count_append, h1]
          · have hanm' : ¬(name = a.name) := fun hn => hanm hn.symm
            have hlt' : (fun k => if k = a.name then some (nowH * 60 + nowM) else lt k) name
                = lt name := by simp [hanm']
            have hwit : ∃ b ∈ rest, b.name = name ∧ b.schedule_enabled = some "on" ∧
                ((parse_account_times b.schedule_times).getD gts).any
                  (fun t => t.hour == nowH && t.minute == nowM) = true := by
              rcases hex with ⟨b, hb, hbn, hben, hbm⟩
              rcases List.mem_cons.mp hb with rfl | hbr
              · exact absurd hbn hanm
              · exact ⟨b, hbr, hbn, hben, hbm⟩
            have hih := ih (fun k => if k = a.name then some (nowH * 60 + nowM) else lt k)
                (L ++ [a.name]) name (by rw [hlt']; exact hfresh) hwit
            refine ⟨hih.1, ?_⟩
            have h0 : ([a.name] : List String).count name = 0 :=
              List.count_eq_zero.mpr (by simp [hanm'])
            rw [hih.2, List.count_append, h0]
      · rw [if_neg hm]
        apply ih lt L name hfresh
        rcases hex with ⟨b, hb, hbn, hben, hbm⟩
        rcases List.mem_cons.mp hb with rfl | hbr
        · exact absurd hbm hm
        · exact ⟨b, hbr, hbn, hben, hbm⟩
    · rw [if_neg he]
      apply ih lt L name hfresh
      rcases hex with ⟨b, hb, hbn, hben, hbm⟩
      rcases List.mem_cons.mp hb with rfl | hbr
      · exact absurd hben he
      · exact ⟨b, hbr, hbn, hben, hbm⟩

/-- C8: for an enabled account whose effective fire-time set matches the
current wall-clock minute and whose recorded last-fired minute differs
from it, one scheduler tick launches that account exactly once and
records the current minute for it, and a second tick evaluated within
the same minute launches it zero further times. -/
theorem claim8_theorem (accounts : List SAcct) (gts : List HM) (nowH nowM : Nat)
    (last : String → Option Nat) (a : SAcct)
    (ha : a ∈ accounts) (hen : a.schedule_enabled = some "on")
    (hmatch : ((parse_account_times a.schedule_times).getD gts).any
      (fun t => t.hour == nowH && t.minute == nowM) = true)
    (hfresh : last a.name ≠ some (nowH * 60 + nowM)) :
    (schedTick accounts gts nowH nowM last).2.count a.name = 1 ∧
    (schedTick accounts gts nowH nowM last).1 a.name = some (nowH * 60 + nowM) ∧
    (schedTick accounts gts nowH nowM
        (schedTick accounts gts nowH nowM last).1).2.count a.name = 0 := by
  have h1 := schedTickGo_fires gts nowH nowM accounts last [] a.name hfresh
      ⟨a, ha, rfl, hen, hmatch⟩
  have h2 := schedTickGo_blocked gts nowH nowM accounts
      (schedTick accounts gts nowH nowM last).1 [] a.name h1.1
  refine ⟨?_, h1.1, ?_⟩
  · rw [show (schedTick accounts gts nowH nowM last).2.count a.name =
        (schedTickGo gts nowH nowM accounts last []).2.count a.name from rfl, h1.2]
    simp
  · rw [show (schedTick accounts gts nowH nowM
        (schedTick accounts gts nowH nowM last).1).2.count a.name =
        (schedTickGo gts nowH nowM accounts
          (schedTick accounts gts nowH nowM last).1 []).2.count a.name from rfl, h2.2]
    simp

/-- Witness for C8: a single enabled account firing at 07:30 IST,
evaluated twice at 07:30 from a fresh last-triggers map. -/
theorem claim8_witness :
    (schedTick [⟨"acct1", some "on", some "07:30"⟩] [] 7 30 (fun _ => none)).2.count "acct1" = 1 ∧
    (schedTick [⟨"acct1", some "on", some "07:30"⟩] [] 7 30 (fun _ => none)).1 "acct1" =
      some (7 * 60 + 30) ∧
    (schedTick [⟨"acct1", some "on", some "07:30"⟩] [] 7 30
        (schedTick [⟨"acct1", some "on", some "07:30"⟩] [] 7 30 (fun _ => none)).1).2.count
      "acct1" = 0 :=
  claim8_theorem [⟨"acct1", some "on", some "07:30"⟩] [] 7 30 (fun _ => none)
    ⟨"acct1", some "on", some "07:30"⟩ (by simp) rfl (by decide) (by decide)

end Instalaz
